import Mathlib

/-!
Verification of the boss systemd proxy (`systemd.go`): the resilient task
supervisor (`monitorTask`), its retry helpers (`reconnect`, `trySendSignal`),
the lifecycle-hook actions (`exec-start`, `exec-start-post`) and the
pre/post cleanup (`cleanupPreviousTask`).

Go's `error` values are modelled as `Option GoError`, with `none` standing
for `nil`.  External collaborators (the containerd client, the consul
register, the network provisioner) are modelled as oracles: functions that
give the result of the n-th call of each operation.  The supervisor's
select loop is driven by an explicit schedule (`List Pick`) saying which of
the three channels fires at each iteration, and each run is instrumented
with a trace of the externally visible actions it performs.
-/

namespace Boss

/-- Errors surfaced by the runtime client, as the code distinguishes them:
the gRPC "unavailable" condition, the errdefs "not found" condition, the
dedicated `errUnableToSignal` sentinel, and everything else. -/
inductive GoError where
  | unavailable
  | notFound
  | unableToSignal
  | msg (s : String)
deriving DecidableEq, Repr

/-- A Go `error` value: `none` is `nil`. -/
abbrev GErr := Option GoError

/-- `isUnavailable(err)` = `errdefs.IsUnavailable(errdefs.FromGRPC(err))`.
`FromGRPC(nil)` is `nil` and `IsUnavailable(nil)` is `false`, so a `nil`
argument is never classified unavailable. -/
def isUnavailable : GErr → Bool
  | some .unavailable => true
  | _ => false

/-- `errdefs.IsNotFound(err)`. -/
def isNotFound : GErr → Bool
  | some .notFound => true
  | _ => false

/-- A delivery on a wait-subscription channel: `exit.Error()` and
`exit.ExitCode()`. -/
structure ExitStatus where
  err : GErr
  code : Nat
deriving DecidableEq, Repr

/-! ## `reconnect` -/

/-- One externally visible action of `reconnect`: a 100 ms sleep or a
`client.Reconnect()` call together with its result. -/
inductive RAct where
  | sleep100
  | reconnectCall (res : GErr)
deriving DecidableEq, Repr

def RAct.isCall : RAct → Bool
  | .reconnectCall _ => true
  | _ => false

/-- The `for i := 0; i < 20; i++` body of `reconnect`: sleep 100 ms, call
`client.Reconnect()` (its result given by the oracle `attempt` at the loop
index), return `nil` on the first success, otherwise keep the last error in
`errVar` and return it after the loop.  `fuel` is the number of iterations
left; the trace is chronological. -/
def reconnectLoop (attempt : Nat → GErr) : Nat → Nat → GErr → GErr × List RAct
  | 0, _, errVar => (errVar, [])
  | fuel+1, i, _ =>
    match attempt i with
    | none => (none, [RAct.sleep100, RAct.reconnectCall none])
    | some e =>
      let rest := reconnectLoop attempt fuel (i+1) (some e)
      (rest.1, RAct.sleep100 :: RAct.reconnectCall (some e) :: rest.2)

/-- `reconnect(client)`: up to 20 iterations, each a 100 ms sleep followed
by one `client.Reconnect()` call; returns `nil` on the first success and
the last error on exhaustion. -/
def reconnect (attempt : Nat → GErr) : GErr × List RAct :=
  reconnectLoop attempt 20 0 none

/-- Number of `client.Reconnect()` calls in a reconnect trace. -/
def callCount (tr : List RAct) : Nat := tr.countP RAct.isCall

/-- The trace shape of `reconnect`: a sequence of (sleep, call) pairs, so
every `Reconnect` call is preceded by exactly one 100 ms sleep and between
two consecutive calls there is exactly one sleep. -/
def sleepThenCall : List RAct → Bool
  | [] => true
  | RAct.sleep100 :: RAct.reconnectCall _ :: rest => sleepThenCall rest
  | _ => false

/-! ## `trySendSignal` -/

/-- The `for i := 0; i < 5; i++` loop of `trySendSignal`: call
`task.Kill(ctx, s)` (result given by `kill` at the loop index); on `nil`
return `nil`; on a non-unavailable error return it; otherwise run
`reconnect` (the oracle `recon i` feeds the reconnect invoked after kill
attempt `i`) and return its error if it fails.  After 5 iterations return
`errUnableToSignal`.  Also returns the number of `Kill` attempts made. -/
def trySendSignalLoop (kill : Nat → GErr) (recon : Nat → Nat → GErr) :
    Nat → Nat → GErr × Nat
  | 0, _ => (some GoError.unableToSignal, 0)
  | fuel+1, i =>
    match kill i with
    | none => (none, 1)
    | some e =>
      if isUnavailable (some e) then
        match (reconnect (recon i)).1 with
        | some re => (some re, 1)
        | none =>
          let rest := trySendSignalLoop kill recon fuel (i+1)
          (rest.1, rest.2 + 1)
      else (some e, 1)

/-- `trySendSignal(ctx, client, task, s)`: at most 5 `Kill` attempts,
reconnecting between attempts on unavailable errors. -/
def trySendSignal (kill : Nat → GErr) (recon : Nat → Nat → GErr) : GErr × Nat :=
  trySendSignalLoop kill recon 5 0

/-! ## `monitorTask`

`monitorTask` is a select loop over three event sources: the buffered
`started` channel (fed once by the `go func` running `task.Start`), the OS
signal channel, and the current wait-subscription channel from
`task.Wait`.  A run is driven by a schedule (`List Pick`) saying which
ready channel the select takes at each iteration.  The `started` channel
holds at most one value; a `Pick.startDone` after it has been drained
cannot fire and is a no-op.  Every call the loop makes to a collaborator
is recorded in a newest-first trace of `Act`s. -/

/-- Which select case fires at one loop iteration. -/
inductive Pick where
  | startDone
  | sig (s : Nat)
  | waitFires
deriving DecidableEq, Repr

/-- Externally visible actions of `monitorTask`, newest first in a log. -/
inductive Act where
  | waitSub (err : GErr)
  | startCall
  | startedRecv (err : GErr)
  | disableMaint (err : GErr)
  | relay (s : Nat) (res : GErr)
  | reconnectWait (res : GErr)
  | teardown (err : GErr)
deriving DecidableEq, Repr

/-- Oracles for every collaborator call `monitorTask` can make.
`waitCallErr n` is the error of the n-th `task.Wait` call; `waitDeliver n`
is what the n-th wait subscription's channel delivers; `startErr` is what
the `go func` sends on `started`; `disableErr` the result of
`DisableMaintainance`; `killRes n i` the i-th `task.Kill` of the n-th
relayed signal; `sigRecon n` the `client.Reconnect` results of reconnects
inside the n-th signal relay; `waitRecon n k` the k-th `client.Reconnect`
of the n-th reconnect invoked from the wait branch. -/
structure MonEnv where
  waitCallErr : Nat → GErr
  waitDeliver : Nat → ExitStatus
  startErr : GErr
  disableErr : GErr
  killRes : Nat → Nat → GErr
  sigRecon : Nat → Nat → Nat → GErr
  waitRecon : Nat → Nat → GErr

/-- The local state of the `monitorTask` loop.  `errVar` is the outer
`err` variable of the Go function (assigned by `wait, err := task.Wait`
and by the re-wait `wait, err = task.Wait`; the `started`, signal and
reconnect branches shadow it with `:=`).  `liveSubs` counts issued wait
subscriptions whose channel has not yet delivered. -/
structure MonState where
  waitIdx : Nat
  errVar : GErr
  startedPending : Bool
  sigCount : Nat
  waitReconCount : Nat
  liveSubs : Nat
  log : List Act

/-- One iteration of the `for { select { ... } }` loop of `monitorTask`:
either the loop continues with a new state, or the function returns
`(status, err)`. -/
def step (env : MonEnv) (st : MonState) : Pick → Sum MonState ((Int × GErr) × MonState)
  | .startDone =>
    if st.startedPending then
      match env.startErr with
      | some e =>
        Sum.inr ((-1, some e),
          { st with startedPending := false, log := .startedRecv (some e) :: st.log })
      | none =>
        Sum.inl { st with startedPending := false,
                          log := .disableMaint env.disableErr :: .startedRecv none :: st.log }
    else Sum.inl st
  | .sig s =>
    let r := (trySendSignal (env.killRes st.sigCount) (env.sigRecon st.sigCount)).1
    Sum.inl { st with sigCount := st.sigCount + 1, log := .relay s r :: st.log }
  | .waitFires =>
    let exit := env.waitDeliver st.waitIdx
    let st1 := { st with liveSubs := st.liveSubs - 1 }
    match exit.err with
    | some _ =>
      if isUnavailable st1.errVar then
        match (reconnect (env.waitRecon st1.waitReconCount)).1 with
        | some re =>
          Sum.inr ((-1, some re),
            { st1 with waitReconCount := st1.waitReconCount + 1,
                       log := .reconnectWait (some re) :: st1.log })
        | none =>
          let we := env.waitCallErr (st1.waitIdx + 1)
          let st2 := { st1 with waitReconCount := st1.waitReconCount + 1,
                                waitIdx := st1.waitIdx + 1,
                                errVar := we,
                                log := .waitSub we :: .reconnectWait none :: st1.log }
          match we with
          | some e => Sum.inr ((-1, some e), st2)
          | none => Sum.inl { st2 with liveSubs := st2.liveSubs + 1 }
      else Sum.inr ((-1, st1.errVar), st1)
    | none => Sum.inr ((Int.ofNat exit.code, none), st1)

/-- Run the loop over a schedule; `none` means the schedule was exhausted
with the loop still waiting. -/
def runLoop (env : MonEnv) : List Pick → MonState → Option (Int × GErr) × MonState
  | [], st => (none, st)
  | p :: ps, st =>
    match step env st p with
    | Sum.inl st2 => runLoop env ps st2
    | Sum.inr (r, st2) => (some r, st2)

/-- State right after `wait, err := task.Wait(ctx)` succeeded and the
`go func` issued `task.Start`. -/
def startState : MonState :=
  { waitIdx := 0, errVar := none, startedPending := true, sigCount := 0,
    waitReconCount := 0, liveSubs := 1,
    log := [Act.startCall, Act.waitSub none] }

/-- `monitorTask(ctx, client, task, signals)`: registers one wait
subscription, returns `(-1, err)` if that fails, otherwise starts the task
asynchronously and runs the select loop.  The deferred
`task.Delete(ctx, WithProcessKill)` (result `deleteErr`) runs on every
return and its outcome is discarded. -/
def monitorTask (env : MonEnv) (deleteErr : GErr) (picks : List Pick) :
    Option (Int × GErr) × MonState :=
  match env.waitCallErr 0 with
  | some e =>
    ((some (-1, some e)),
      { waitIdx := 0, errVar := some e, startedPending := false, sigCount := 0,
        waitReconCount := 0, liveSubs := 0,
        log := [Act.teardown deleteErr, Act.waitSub (some e)] })
  | none =>
    let r := runLoop env picks startState
    match r.1 with
    | some res => (some res, { r.2 with log := Act.teardown deleteErr :: r.2.log })
    | none => (none, r.2)

/-! ### Trace predicates -/

def Act.isDisableMaint : Act → Bool
  | .disableMaint _ => true
  | _ => false

def Act.isTeardown : Act → Bool
  | .teardown _ => true
  | _ => false

def Act.isReconnectWait : Act → Bool
  | .reconnectWait _ => true
  | _ => false

def Act.isReconnectWaitOk : Act → Bool
  | .reconnectWait none => true
  | _ => false

def Act.isWaitSub : Act → Bool
  | .waitSub _ => true
  | _ => false

def Act.isStartedRecvOk : Act → Bool
  | .startedRecv none => true
  | _ => false

/-- Count of `DisableMaintainance` calls in a log. -/
def dmCount (l : List Act) : Nat := l.countP Act.isDisableMaint

/-- Count of deferred-teardown executions in a log. -/
def tdCount (l : List Act) : Nat := l.countP Act.isTeardown

/-- Count of wait-branch reconnect invocations in a log. -/
def rwCount (l : List Act) : Nat := l.countP Act.isReconnectWait

/-- In a newest-first log: every successful wait-branch reconnect is
immediately followed (chronologically) by a new wait subscription.  The
head check rejects a newest action that is an unfollowed successful
reconnect. -/
def rwHeadOk : List Act → Bool
  | [] => true
  | a :: _ => !Act.isReconnectWaitOk a

def rwPairsOk : List Act → Bool
  | x :: y :: rest => (if Act.isReconnectWaitOk y then Act.isWaitSub x else true)
      && rwPairsOk (y :: rest)
  | _ => true

def rwInv (l : List Act) : Bool := rwHeadOk l && rwPairsOk l

/-- In a newest-first log: every `DisableMaintainance` call is immediately
preceded (chronologically) by a successful receive on `started`, and the
oldest action is not a `DisableMaintainance` call. -/
def dmPairsOk : List Act → Bool
  | [] => true
  | [a] => !Act.isDisableMaint a
  | x :: y :: rest => (if Act.isDisableMaint x then Act.isStartedRecvOk y else true)
      && dmPairsOk (y :: rest)

/-- Invariant tying a supervisor log (newest first) to the `started`
channel state: each successful wait-branch reconnect is followed by
exactly one new wait subscription; each `DisableMaintainance` call is
immediately preceded by a successful `started` receive, happens at most
once, never while `started` is still pending, and only when `task.Start`
returned `nil`; the deferred teardown has not run; and the log began with
one wait subscription followed by the start call. -/
def LogInvL (env : MonEnv) (pending : Bool) (l : List Act) : Prop :=
  rwInv l = true ∧
  dmPairsOk l = true ∧
  (pending = true → dmCount l = 0) ∧
  dmCount l ≤ 1 ∧
  (1 ≤ dmCount l → env.startErr = none) ∧
  tdCount l = 0 ∧
  ∃ old, l = old ++ [Act.startCall, Act.waitSub none]

def LogInv (env : MonEnv) (st : MonState) : Prop :=
  LogInvL env st.startedPending st.log

/-- Invariant of the running loop: the log invariant plus "exactly one
live wait subscription". -/
def StInv (env : MonEnv) (st : MonState) : Prop :=
  LogInv env st ∧ st.liveSubs = 1

/-- What `step` must preserve: the full invariant if the loop continues,
the log invariant for the final state if it returns. -/
def stepInvGoal (env : MonEnv) : Sum MonState ((Int × GErr) × MonState) → Prop
  | Sum.inl st2 => StInv env st2
  | Sum.inr (_, st2) => LogInv env st2

/-! ## The `exec-start` and `exec-start-post` hook actions -/

/-- Trace of the hook-level side effects around `monitorTask`. -/
inductive SAct where
  | registered (name : String) (res : GErr)
  | taskDeleteAbort
deriving DecidableEq, Repr

/-- `setupNetworking(ctx, task, c)`: ask the network provisioner for an IP
(`netCreate` = result of `cfg.Network(c.Network).Create(task)`); a create
error is returned to the caller; with a non-empty IP each configured
service is registered and a `Register` failure is only logged. -/
def setupNetworking (netCreate : GErr × String) (services : List (String × GErr)) :
    GErr × List SAct :=
  match netCreate with
  | (some e, _) => (some e, [])
  | (none, ip) =>
    if ip ≠ "" then (none, services.map fun p => SAct.registered p.1 p.2)
    else (none, [])

/-- How the `exec-start` hook process ends: `exited c` for `os.Exit(status)`
after a normal `monitorTask` return, `failed e` when the action returns an
error (urfave/cli then exits non-zero), `running` when the supervised task
has not exited within the modelled schedule. -/
inductive HookResult where
  | exited (code : Nat)
  | failed (e : GoError)
  | running
deriving DecidableEq, Repr

/-- The exit code the OS observes for `os.Exit(status)`: the status is
truncated to its low 8 bits, so `os.Exit(-1)` exits with code 255. -/
def osExitCode (s : Int) : Nat := (s % 256).toNat

/-- Environment of one `exec-start` invocation: results of
`client.LoadContainer`, `getConfig`, `container.NewTask`, the network
`Create` call, the per-service `Register` calls, and the oracles of the
supervisor loop. -/
structure StartEnv where
  loadErr : GErr
  configErr : GErr
  newTaskErr : GErr
  netCreate : GErr × String
  services : List (String × GErr)
  mon : MonEnv
  deleteErr : GErr

/-- The `systemdExecStartCommand` action: load container, read config,
create the task, set up networking (on failure: kill-delete the task and
return the error), then run `monitorTask`; a `monitorTask` error is
returned, otherwise the process exits with the returned status. -/
def execStart (env : StartEnv) (picks : List Pick) : HookResult × List SAct :=
  match env.loadErr with
  | some e => (.failed e, [])
  | none =>
  match env.configErr with
  | some e => (.failed e, [])
  | none =>
  match env.newTaskErr with
  | some e => (.failed e, [])
  | none =>
    match setupNetworking env.netCreate env.services with
    | (some e, acts) => (.failed e, acts ++ [SAct.taskDeleteAbort])
    | (none, acts) =>
      match (monitorTask env.mon env.deleteErr picks).1 with
      | some (_, some e) => (.failed e, acts)
      | some (status, none) => (.exited (osExitCode status), acts)
      | none => (.running, acts)

/-- The `systemdExecStartPostCommand` action body:
`err := cleanupPreviousTask(id)`, then
`if merr := EnableMaintainance(id, "task exited"); err == nil { err = merr }`;
the maintenance error is returned whenever cleanup succeeded. -/
def execStartPost (cleanupRes : GErr) (maintRes : GErr) : GErr :=
  match cleanupRes with
  | none => maintRes
  | some e => some e

/-! ## `cleanupPreviousTask` -/

/-- The runtime state one `cleanupPreviousTask(id)` call sees: the result
of `client.LoadContainer(ctx, id)`, whether a task currently exists for
the container, an optional failure injected into `container.Task`, and
the result of `task.Delete(ctx, WithProcessKill)`. -/
structure RtState where
  loadErr : GErr
  task : Option Nat
  lookupFailErr : GErr
  deleteErr : GErr
deriving DecidableEq, Repr

/-- The error of `container.Task(ctx, nil)`: an injected failure if any,
otherwise not-found exactly when no task exists. -/
def taskLookup (st : RtState) : GErr :=
  match st.lookupFailErr with
  | some e => some e
  | none =>
    match st.task with
    | none => some GoError.notFound
    | some _ => none

/-- `cleanupPreviousTask(id)`: load the container (propagating any load
error), look up its task (treating a not-found lookup as success with no
side effect), and otherwise kill-and-delete the task.  Returns the error
and the runtime state afterwards. -/
def cleanupPreviousTask (st : RtState) : GErr × RtState :=
  match st.loadErr with
  | some e => (some e, st)
  | none =>
    match taskLookup st with
    | some e => if isNotFound (some e) then (none, st) else (some e, st)
    | none => (st.deleteErr, { st with task := none })

/-! ## Concrete scenario environments -/

/-- Scenario: start succeeds, the first wait subscription delivers a
connection-unavailable error, every `client.Reconnect` would succeed, and
a re-issued wait subscription would deliver the task's true exit with
code 7. -/
def unavailEnv : MonEnv :=
  { waitCallErr := fun _ => none
    waitDeliver := fun n => if n = 0 then ⟨some GoError.unavailable, 0⟩ else ⟨none, 7⟩
    startErr := none
    disableErr := none
    killRes := fun _ _ => none
    sigRecon := fun _ _ _ => none
    waitRecon := fun _ _ => none }

/-- The C1 scenario lifted to a whole `exec-start` invocation. -/
def unavailStartEnv : StartEnv :=
  { loadErr := none, configErr := none, newTaskErr := none,
    netCreate := (none, ""), services := [], mon := unavailEnv, deleteErr := none }

/-- Scenario: the wait subscription delivers a task-level (not-found)
error while the connection is fine. -/
def taskErrEnv : MonEnv :=
  { unavailEnv with waitDeliver := fun _ => ⟨some GoError.notFound, 0⟩ }

/-- Scenario: `DisableMaintainance` fails. -/
def dmFailEnv : MonEnv :=
  { unavailEnv with disableErr := some (GoError.msg "maintenance toggle failed") }

/-- Scenario: the network provisioner's `Create` call fails during
`exec-start`. -/
def netFailStartEnv : StartEnv :=
  { unavailStartEnv with netCreate := (some (GoError.msg "create failed"), "") }

/-- Every `task.Kill` reports the daemon unavailable. -/
def killAllUnavail : Nat → GErr := fun _ => some GoError.unavailable

/-- Every `client.Reconnect` succeeds, in every reconnect invocation. -/
def reconAllOk : Nat → Nat → GErr := fun _ _ => none

/-- `task.Kill` fails with a task-level error. -/
def killTaskErr : Nat → GErr := fun _ => some GoError.notFound

/-- First `task.Kill` hits an unavailable daemon, the retry succeeds. -/
def killSecondOk : Nat → GErr := fun i => if i = 0 then some GoError.unavailable else none

/-- `client.Reconnect` fails twice, then succeeds on the third attempt. -/
def reconThird : Nat → GErr := fun j => if j < 2 then some (GoError.msg "daemon down") else none

/-- `client.Reconnect` never succeeds. -/
def reconNever : Nat → GErr := fun _ => some GoError.unavailable

/-- Runtime state with a loadable container and no task. -/
def emptyRt : RtState :=
  { loadErr := none, task := none, lookupFailErr := none, deleteErr := none }

/-- Runtime state whose container cannot be loaded (container not found). -/
def missingContainerRt : RtState :=
  { loadErr := some GoError.notFound, task := none, lookupFailErr := none, deleteErr := none }

/-! ## Theorems -/

theorem reconnectLoop_succ_none (attempt : Nat → GErr) (fuel i : Nat) (e : GErr)
    (h : attempt i = none) :
    reconnectLoop attempt (fuel+1) i e = (none, [RAct.sleep100, RAct.reconnectCall none]) := by
  simp [reconnectLoop, h]

theorem reconnectLoop_succ_some (attempt : Nat → GErr) (fuel i : Nat) (e : GErr)
    (e2 : GoError) (h : attempt i = some e2) :
    reconnectLoop attempt (fuel+1) i e =
      ((reconnectLoop attempt fuel (i+1) (some e2)).1,
        RAct.sleep100 :: RAct.reconnectCall (some e2) ::
          (reconnectLoop attempt fuel (i+1) (some e2)).2) := by
  simp [reconnectLoop, h]

theorem reconnectLoop_count_le (attempt : Nat → GErr) :
    ∀ fuel i e, callCount (reconnectLoop attempt fuel i e).2 ≤ fuel := by
  intro fuel
  induction fuel with
  | zero => intro i e; simp [reconnectLoop, callCount]
  | succ n ih =>
    intro i e
    cases h : attempt i with
    | none =>
      rw [reconnectLoop_succ_none attempt n i e h]
      simp [callCount, List.countP_cons, RAct.isCall]
    | some e2 =>
      have h2 := ih (i+1) (some e2)
      rw [reconnectLoop_succ_some attempt n i e e2 h]
      simp only [callCount] at h2 ⊢
      simp [List.countP_cons, RAct.isCall]
      omega

theorem reconnectLoop_shape (attempt : Nat → GErr) :
    ∀ fuel i e, sleepThenCall (reconnectLoop attempt fuel i e).2 = true := by
  intro fuel
  induction fuel with
  | zero => intro i e; simp [reconnectLoop, sleepThenCall]
  | succ n ih =>
    intro i e
    cases h : attempt i with
    | none =>
      rw [reconnectLoop_succ_none attempt n i e h]
      rfl
    | some e2 =>
      have h2 := ih (i+1) (some e2)
      rw [reconnectLoop_succ_some attempt n i e e2 h]
      simpa [sleepThenCall] using h2

theorem reconnectLoop_first_success (attempt : Nat → GErr) :
    ∀ fuel i e k, k < fuel → attempt (i + k) = none →
      (∀ j, j < k → (attempt (i + j)).isSome) →
      (reconnectLoop attempt fuel i e).1 = none ∧
      callCount (reconnectLoop attempt fuel i e).2 = k + 1 := by
  intro fuel
  induction fuel with
  | zero => intro i e k hk; omega
  | succ n ih =>
    intro i e k hk hsucc hfail
    cases k with
    | zero =>
      rw [Nat.add_zero] at hsucc
      rw [reconnectLoop_succ_none attempt n i e hsucc]
      exact ⟨rfl, rfl⟩
    | succ m =>
      have h0 : (attempt (i + 0)).isSome := hfail 0 (Nat.succ_pos m)
      cases ha : attempt i with
      | none => rw [Nat.add_zero] at h0; rw [ha] at h0; simp at h0
      | some e2 =>
        have hrec := ih (i+1) (some e2) m (by omega)
          (by rw [show i + 1 + m = i + (m + 1) by omega]; exact hsucc)
          (by intro j hj
              rw [show i + 1 + j = i + (j + 1) by omega]
              exact hfail (j+1) (by omega))
        rw [reconnectLoop_succ_some attempt n i e e2 ha]
        refine ⟨hrec.1, ?_⟩
        have hc := hrec.2
        simp only [callCount] at hc ⊢
        simp [List.countP_cons, RAct.isCall]
        omega

theorem reconnectLoop_exhaust (attempt : Nat → GErr) :
    ∀ fuel i e, 0 < fuel → (∀ j, j < fuel → (attempt (i + j)).isSome) →
      (reconnectLoop attempt fuel i e).1 = attempt (i + fuel - 1) := by
  intro fuel
  induction fuel with
  | zero => intro i e h; omega
  | succ n ih =>
    intro i e _ hfail
    have h0 : (attempt (i + 0)).isSome := hfail 0 (Nat.succ_pos n)
    cases ha : attempt i with
    | none => rw [Nat.add_zero] at h0; rw [ha] at h0; simp at h0
    | some e2 =>
      rw [reconnectLoop_succ_some attempt n i e e2 ha]
      cases n with
      | zero =>
        show (reconnectLoop attempt 0 (i+1) (some e2)).1 = attempt (i + 1 - 1)
        rw [show reconnectLoop attempt 0 (i+1) (some e2) = (some e2, []) from rfl]
        rw [show i + 1 - 1 = i by omega, ha]
      | succ m =>
        have hrec := ih (i+1) (some e2) (Nat.succ_pos m)
          (by intro j hj
              rw [show i + 1 + j = i + (j + 1) by omega]
              exact hfail (j+1) (by omega))
        show (reconnectLoop attempt (m+1) (i+1) (some e2)).1 = attempt (i + (m + 1 + 1) - 1)
        rw [hrec]
        congr 1
        omega


theorem trySendSignalLoop_le (kill : Nat → GErr) (recon : Nat → Nat → GErr) :
    ∀ fuel i, (trySendSignalLoop kill recon fuel i).2 ≤ fuel := by
  intro fuel
  induction fuel with
  | zero => intro i; simp [trySendSignalLoop]
  | succ n ih =>
    intro i
    cases h : kill i with
    | none => simp [trySendSignalLoop, h]
    | some e =>
      by_cases hu : isUnavailable (some e) = true
      · cases hr : (reconnect (recon i)).1 with
        | none =>
          have := ih (i+1)
          simp [trySendSignalLoop, h, hu, hr]
          omega
        | some re => simp [trySendSignalLoop, h, hu, hr]
      · simp [trySendSignalLoop, h, hu]

/-! ### Log invariant preservation -/

theorem dmCount_cons (a : Act) (l : List Act) :
    dmCount (a :: l) = dmCount l + (if Act.isDisableMaint a then 1 else 0) := by
  simp [dmCount, List.countP_cons]

theorem tdCount_cons (a : Act) (l : List Act) :
    tdCount (a :: l) = tdCount l + (if Act.isTeardown a then 1 else 0) := by
  simp [tdCount, List.countP_cons]

theorem rwInv_cons (a : Act) (l : List Act) (ha : Act.isReconnectWaitOk a = false)
    (h : rwInv l = true) : rwInv (a :: l) = true := by
  simp only [rwInv, Bool.and_eq_true] at h ⊢
  obtain ⟨hh, hp⟩ := h
  constructor
  · simp [rwHeadOk, ha]
  · cases l with
    | nil => simp [rwPairsOk]
    | cons b rest =>
      have hb : Act.isReconnectWaitOk b = false := by simpa [rwHeadOk] using hh
      simp [rwPairsOk, hb, hp]

theorem rwInv_cons2 (e : GErr) (l : List Act) (h : rwInv l = true) :
    rwInv (Act.waitSub e :: Act.reconnectWait none :: l) = true := by
  simp only [rwInv, Bool.and_eq_true] at h ⊢
  obtain ⟨hh, hp⟩ := h
  constructor
  · simp [rwHeadOk, Act.isReconnectWaitOk]
  · cases l with
    | nil => simp [rwPairsOk, Act.isReconnectWaitOk, Act.isWaitSub]
    | cons b rest =>
      have hb : Act.isReconnectWaitOk b = false := by simpa [rwHeadOk] using hh
      have t1 : Act.isReconnectWaitOk (Act.reconnectWait none) = true := rfl
      have t2 : Act.isWaitSub (Act.waitSub e) = true := rfl
      simp [rwPairsOk, hb, hp, t1, t2]

theorem dmPairsOk_cons (a : Act) (l : List Act) (ha : Act.isDisableMaint a = false)
    (h : dmPairsOk l = true) : dmPairsOk (a :: l) = true := by
  cases l with
  | nil => simp [dmPairsOk, ha]
  | cons b rest => simp [dmPairsOk, ha, h]

theorem dmPairsOk_cons2 (d : GErr) (l : List Act) (h : dmPairsOk l = true) :
    dmPairsOk (Act.disableMaint d :: Act.startedRecv none :: l) = true := by
  have h2 : dmPairsOk (Act.startedRecv none :: l) = true := dmPairsOk_cons _ l rfl h
  simp [dmPairsOk, Act.isDisableMaint, Act.isStartedRecvOk, h2]

theorem LogInvL_cons (env : MonEnv) (p1 p2 : Bool) (l : List Act) (a : Act)
    (ha1 : Act.isReconnectWaitOk a = false) (ha2 : Act.isDisableMaint a = false)
    (ha3 : Act.isTeardown a = false) (hp : p2 = true → p1 = true)
    (h : LogInvL env p1 l) : LogInvL env p2 (a :: l) := by
  obtain ⟨h1, h2, h3, h4, h5, h6, old, h7⟩ := h
  refine ⟨rwInv_cons a l ha1 h1, dmPairsOk_cons a l ha2 h2, ?_, ?_, ?_, ?_,
    a :: old, by simp [h7]⟩
  · intro hq
    have h0 := h3 (hp hq)
    simp [dmCount_cons, ha2, h0]
  · simpa [dmCount_cons, ha2] using h4
  · intro hq
    apply h5
    simpa [dmCount_cons, ha2] using hq
  · simpa [tdCount_cons, ha3] using h6

theorem LogInvL_rewait (env : MonEnv) (p : Bool) (l : List Act) (e : GErr)
    (h : LogInvL env p l) :
    LogInvL env p (Act.waitSub e :: Act.reconnectWait none :: l) := by
  obtain ⟨h1, h2, h3, h4, h5, h6, old, h7⟩ := h
  refine ⟨rwInv_cons2 e l h1, ?_, ?_, ?_, ?_, ?_,
    Act.waitSub e :: Act.reconnectWait none :: old, by simp [h7]⟩
  · exact dmPairsOk_cons _ _ rfl (dmPairsOk_cons _ _ rfl h2)
  · intro hq
    have h0 := h3 hq
    simp [dmCount_cons, Act.isDisableMaint, h0]
  · simpa [dmCount_cons, Act.isDisableMaint] using h4
  · intro hq
    apply h5
    simpa [dmCount_cons, Act.isDisableMaint] using hq
  · simpa [tdCount_cons, Act.isTeardown] using h6

theorem LogInvL_dm (env : MonEnv) (l : List Act) (d : GErr)
    (hse : env.startErr = none) (h : LogInvL env true l) :
    LogInvL env false (Act.disableMaint d :: Act.startedRecv none :: l) := by
  obtain ⟨h1, h2, h3, h4, h5, h6, old, h7⟩ := h
  have hdm0 : dmCount l = 0 := h3 rfl
  refine ⟨?_, dmPairsOk_cons2 d l h2, ?_, ?_, ?_, ?_,
    Act.disableMaint d :: Act.startedRecv none :: old, by simp [h7]⟩
  · exact rwInv_cons _ _ rfl (rwInv_cons _ _ rfl h1)
  · intro hq; simp at hq
  · simp [dmCount_cons, Act.isDisableMaint, hdm0]
  · intro _; exact hse
  · simpa [tdCount_cons, Act.isTeardown] using h6

theorem step_inv (env : MonEnv) (st : MonState) (p : Pick) (h : StInv env st) :
    stepInvGoal env (step env st p) := by
  obtain ⟨hlog, hlive⟩ := h
  cases p with
  | startDone =>
    cases hp : st.startedPending with
    | false =>
      simp only [step, hp, Bool.false_eq_true, if_false]
      exact ⟨hlog, hlive⟩
    | true =>
      cases hse : env.startErr with
      | some e =>
        simp only [step, hp, if_true, hse, stepInvGoal]
        unfold LogInv at hlog ⊢
        rw [hp] at hlog
        exact LogInvL_cons env true false st.log _ rfl rfl rfl (by simp) hlog
      | none =>
        simp only [step, hp, if_true, hse, stepInvGoal]
        refine ⟨?_, hlive⟩
        unfold LogInv at hlog ⊢
        rw [hp] at hlog
        exact LogInvL_dm env st.log env.disableErr hse hlog
  | sig s =>
    simp only [step, stepInvGoal]
    refine ⟨?_, hlive⟩
    unfold LogInv at hlog ⊢
    exact LogInvL_cons env _ _ st.log _ rfl rfl rfl (fun hq => hq) hlog
  | waitFires =>
    cases hex : (env.waitDeliver st.waitIdx).err with
    | none =>
      simp only [step, hex, stepInvGoal]
      exact hlog
    | some e =>
      cases hu : isUnavailable st.errVar with
      | false =>
        simp only [step, hex, hu, Bool.false_eq_true, if_false, stepInvGoal]
        exact hlog
      | true =>
        cases hrc : (reconnect (env.waitRecon st.waitReconCount)).1 with
        | some re =>
          simp only [step, hex, hu, if_true, hrc, stepInvGoal]
          unfold LogInv at hlog ⊢
          exact LogInvL_cons env _ _ st.log _ rfl rfl rfl (fun hq => hq) hlog
        | none =>
          cases hwe : env.waitCallErr (st.waitIdx + 1) with
          | some e2 =>
            simp only [step, hex, hu, if_true, hrc, hwe, stepInvGoal]
            unfold LogInv at hlog ⊢
            exact LogInvL_rewait env _ st.log _ hlog
          | none =>
            simp only [step, hex, hu, if_true, hrc, hwe, stepInvGoal]
            refine ⟨?_, by simp [hlive]⟩
            unfold LogInv at hlog ⊢
            exact LogInvL_rewait env _ st.log _ hlog

theorem runLoop_inv (env : MonEnv) :
    ∀ (ps : List Pick) (st : MonState), StInv env st →
      ((runLoop env ps st).1 = none → StInv env (runLoop env ps st).2) ∧
      (∀ r, (runLoop env ps st).1 = some r → LogInv env (runLoop env ps st).2) := by
  intro ps
  induction ps with
  | nil =>
    intro st h
    exact ⟨fun _ => h, by simp [runLoop]⟩
  | cons p ps ih =>
    intro st h
    have hs := step_inv env st p h
    cases hstep : step env st p with
    | inl st2 =>
      rw [hstep] at hs
      simp only [runLoop, hstep]
      exact ih st2 hs
    | inr r2 =>
      rw [hstep] at hs
      obtain ⟨r, st2⟩ := r2
      simp only [runLoop, hstep]
      exact ⟨by simp, fun r3 _ => hs⟩

theorem startState_inv (env : MonEnv) : StInv env startState := by
  refine ⟨⟨by decide, by decide, fun _ => by decide, by decide, ?_, by decide, [], rfl⟩, rfl⟩
  intro hq
  exact absurd hq (by decide)

theorem trySendSignalLoop_exhaust (kill : Nat → GErr) (recon : Nat → Nat → GErr) :
    ∀ fuel i, (∀ j, j < fuel → kill (i + j) = some GoError.unavailable) →
      (∀ j, (reconnect (recon j)).1 = none) →
      trySendSignalLoop kill recon fuel i = (some GoError.unableToSignal, fuel) := by
  intro fuel
  induction fuel with
  | zero => intro i _ _; rfl
  | succ n ih =>
    intro i hk hr
    have h0 : kill i = some GoError.unavailable := by simpa using hk 0 (Nat.succ_pos n)
    have hrec := ih (i+1) (fun j hj => by
      rw [show i + 1 + j = i + (j + 1) by omega]
      exact hk (j+1) (by omega)) hr
    simp [trySendSignalLoop, h0, isUnavailable, hr i, hrec]

/-- C6: `reconnect` makes at most 20 re-establishment attempts, sleeping
100 ms between attempts (the trace is a sequence of sleep-then-call
pairs), returns success as soon as one `Reconnect` call succeeds — after
exactly `k+1` calls when the first success is the k-th attempt, and hence
trivially when the connection is already live and the first call
succeeds — and on exhausting all 20 attempts returns the last error,
which is non-nil. -/
theorem c6_reconnect_bounded (attempt : Nat → GErr) :
    callCount (reconnect attempt).2 ≤ 20 ∧
    sleepThenCall (reconnect attempt).2 = true ∧
    (∀ k, k < 20 → attempt k = none → (∀ j, j < k → (attempt j).isSome) →
      (reconnect attempt).1 = none ∧ callCount (reconnect attempt).2 = k + 1) ∧
    ((∀ j, j < 20 → (attempt j).isSome) →
      (reconnect attempt).1 = attempt 19 ∧ ((reconnect attempt).1).isSome) ∧
    (attempt 0 = none →
      reconnect attempt = (none, [RAct.sleep100, RAct.reconnectCall none])) := by
  unfold reconnect
  refine ⟨reconnectLoop_count_le attempt 20 0 none,
    reconnectLoop_shape attempt 20 0 none, ?_, ?_, ?_⟩
  · intro k hk hks hkf
    exact reconnectLoop_first_success attempt 20 0 none k hk (by simpa using hks)
      (fun j hj => by simpa using hkf j hj)
  · intro hall
    have he := reconnectLoop_exhaust attempt 20 0 none (by omega)
      (fun j hj => by simpa using hall j hj)
    have h19 : (reconnectLoop attempt 20 0 none).1 = attempt 19 := by simpa using he
    refine ⟨h19, ?_⟩
    rw [h19]
    exact hall 19 (by omega)
  · intro h0
    exact reconnectLoop_succ_none attempt 19 0 none h0

/-- C6 witness: reconnection succeeding on attempt 3 of 20 stops after 3
calls; a never-recovering daemon exhausts the bound with a non-nil
error. -/
theorem c6_witness :
    (reconnect reconThird).1 = none ∧ callCount (reconnect reconThird).2 = 3 ∧
    (reconnect reconNever).1 = some GoError.unavailable := by
  have h1 := (c6_reconnect_bounded reconThird).2.2.1 2 (by omega) (by decide) (by decide)
  have h2 := (c6_reconnect_bounded reconNever).2.2.2.1 (fun j _ => rfl)
  exact ⟨h1.1, h1.2, h2.1⟩

/-- C5: `trySendSignal` makes at most 5 `Kill` attempts; a non-unavailable
send error fails immediately with that error after one attempt; if every
attempt hits an unavailable daemon and each reconnection succeeds, the
bound is exhausted and the dedicated `errUnableToSignal` is returned; an
unavailable error triggers reconnection and a retry; and in the
supervisor loop a signal event always continues the loop, with the relay
result only entering the log. -/
theorem c5_signal_relay_bounded (kill : Nat → GErr) (recon : Nat → Nat → GErr)
    (env : MonEnv) (st : MonState) (s : Nat) (e : GoError) :
    (trySendSignal kill recon).2 ≤ 5 ∧
    (kill 0 = some e → isUnavailable (some e) = false →
      trySendSignal kill recon = (some e, 1)) ∧
    ((∀ j, j < 5 → kill j = some GoError.unavailable) →
      (∀ j, (reconnect (recon j)).1 = none) →
      trySendSignal kill recon = (some GoError.unableToSignal, 5)) ∧
    (kill 0 = some GoError.unavailable → (reconnect (recon 0)).1 = none → kill 1 = none →
      trySendSignal kill recon = (none, 2)) ∧
    (step env st (Pick.sig s) = Sum.inl
      { st with
        sigCount := st.sigCount + 1
        log := Act.relay s
          (trySendSignal (env.killRes st.sigCount) (env.sigRecon st.sigCount)).1 :: st.log }) := by
  refine ⟨trySendSignalLoop_le kill recon 5 0, ?_, ?_, ?_, rfl⟩
  · intro hk hu
    unfold trySendSignal
    simp [trySendSignalLoop, hk, hu]
  · intro hk hr
    exact trySendSignalLoop_exhaust kill recon 5 0 (fun j hj => by simpa using hk j hj) hr
  · intro h0 hr0 h1
    unfold trySendSignal
    simp [trySendSignalLoop, h0, isUnavailable, hr0, h1]

/-- C5 witness: concrete relays hitting the bound, a task-level error, and
a reconnect-then-retry success. -/
theorem c5_witness :
    trySendSignal killAllUnavail reconAllOk = (some GoError.unableToSignal, 5) ∧
    trySendSignal killTaskErr reconAllOk = (some GoError.notFound, 1) ∧
    trySendSignal killSecondOk reconAllOk = (none, 2) := by
  refine ⟨?_, ?_, ?_⟩
  · exact (c5_signal_relay_bounded killAllUnavail reconAllOk unavailEnv startState 0
      GoError.notFound).2.2.1 (fun j _ => rfl) (fun j => rfl)
  · exact (c5_signal_relay_bounded killTaskErr reconAllOk unavailEnv startState 0
      GoError.notFound).2.1 rfl rfl
  · exact (c5_signal_relay_bounded killSecondOk reconAllOk unavailEnv startState 0
      GoError.notFound).2.2.2.1 rfl rfl rfl

/-- C1: evidence against the claim.  With start succeeded, the first wait
delivery carrying a connection-unavailable error, every reconnection
bound to succeed, and the task's true eventual exit code 7, the loop does
not recover: it classifies the stale outer `err` (nil, never unavailable),
invokes no reconnection, returns `(-1, nil)`, and the hook process exits
with `os.Exit(-1)` = code 255 instead of 7. -/
theorem c1_stale_err_no_recovery :
    execStart unavailStartEnv [Pick.startDone, Pick.waitFires] = (HookResult.exited 255, []) ∧
    (unavailEnv.waitDeliver 0).err = some GoError.unavailable ∧
    (unavailEnv.waitDeliver 1).code = 7 ∧
    rwCount (monitorTask unavailEnv none [Pick.startDone, Pick.waitFires]).2.log = 0 := by
  refine ⟨by decide, rfl, rfl, by decide⟩

/-- C2: evidence against the claim.  When the wait delivery carries a
task-level (not-found) error, the loop classifies the stale outer `err`
(nil) instead of the actual wait error, so it indeed never reconnects but
returns `(-1, nil)`: the wait error is dropped rather than propagated as
a fatal error to the caller. -/
theorem c2_wait_error_dropped :
    (monitorTask taskErrEnv none [Pick.startDone, Pick.waitFires]).1 = some (-1, none) ∧
    (taskErrEnv.waitDeliver 0).err = some GoError.notFound ∧
    isUnavailable (taskErrEnv.waitDeliver 0).err = false ∧
    rwCount (monitorTask taskErrEnv none [Pick.startDone, Pick.waitFires]).2.log = 0 := by
  refine ⟨by decide, rfl, rfl, by decide⟩

/-- C7 counterexample: a network-attachment (`Create`) failure is returned
by the `exec-start` action — reaching the hook's exit status — and the
task is kill-deleted; and an `EnableMaintainance` failure is returned by
the `exec-start-post` action when cleanup succeeded.  Both contradict
"always logged and never escalated". -/
theorem c7_counterexample :
    execStart netFailStartEnv [] =
      (HookResult.failed (GoError.msg "create failed"), [SAct.taskDeleteAbort]) ∧
    execStartPost none (some (GoError.msg "enable maintenance failed")) =
      some (GoError.msg "enable maintenance failed") := ⟨rfl, rfl⟩

/-- C7 amended: service-registration failures and `DisableMaintainance`
failures are logged and never escalated (a `Create` success makes
`setupNetworking` succeed regardless of registration results, and the
loop always continues past a failed maintenance clear); but a
network-attachment failure propagates to the `exec-start` hook result and
kill-deletes the task, and an `EnableMaintainance` failure propagates to
the `exec-start-post` hook result whenever cleanup succeeded. -/
theorem c7_side_effect_scope (ip ip2 : String) (services : List (String × GErr))
    (env : MonEnv) (st : MonState) (senv : StartEnv) (picks : List Pick)
    (e : GoError) (m : GErr) :
    (setupNetworking (none, ip) services).1 = none ∧
    (st.startedPending = true → env.startErr = none →
      ∃ st2, step env st Pick.startDone = Sum.inl st2) ∧
    (senv.loadErr = none → senv.configErr = none → senv.newTaskErr = none →
      senv.netCreate = (some e, ip2) →
      execStart senv picks = (HookResult.failed e, [SAct.taskDeleteAbort])) ∧
    execStartPost none m = m ∧
    execStartPost (some e) m = some e := by
  refine ⟨?_, ?_, ?_, rfl, rfl⟩
  · simp only [setupNetworking]
    split <;> rfl
  · intro hp hse
    refine ⟨{ st with
        startedPending := false
        log := Act.disableMaint env.disableErr :: Act.startedRecv none :: st.log }, ?_⟩
    simp [step, hp, hse]
  · intro h1 h2 h3 h4
    simp [execStart, h1, h2, h3, h4, setupNetworking]

/-- C7 witness: registration failure absorbed; `Create` failure escalated
with the task deleted; post-hook maintenance failure returned. -/
theorem c7_witness :
    (setupNetworking (none, "10.0.0.5")
      [("http", some (GoError.msg "registration failed"))]).1 = none ∧
    execStart { unavailStartEnv with netCreate := (some GoError.unavailable, "") } [] =
      (HookResult.failed GoError.unavailable, [SAct.taskDeleteAbort]) ∧
    execStartPost none (some GoError.notFound) = some GoError.notFound := by
  have h := c7_side_effect_scope "10.0.0.5" "" [("http", some (GoError.msg "registration failed"))]
    unavailEnv startState { unavailStartEnv with netCreate := (some GoError.unavailable, "") } []
    GoError.unavailable (some GoError.notFound)
  exact ⟨h.1, h.2.2.1 rfl rfl rfl rfl, h.2.2.2.1⟩

/-- C8: when the container loads and no task exists, `cleanupPreviousTask`
converts the not-found task lookup to a success, with no error and no
change to the runtime state, and calling it twice in a row succeeds both
times. -/
theorem c8_cleanup_idempotent (st : RtState) (h1 : st.loadErr = none)
    (h2 : st.lookupFailErr = none) (h3 : st.task = none) :
    cleanupPreviousTask st = (none, st) ∧
    cleanupPreviousTask (cleanupPreviousTask st).2 = (none, st) := by
  have hl : taskLookup st = some GoError.notFound := by simp [taskLookup, h2, h3]
  have hc : cleanupPreviousTask st = (none, st) := by
    simp [cleanupPreviousTask, h1, hl, isNotFound]
  exact ⟨hc, by rw [hc]; exact hc⟩

/-- C8 witness: a loadable container with no task, cleaned up twice. -/
theorem c8_witness :
    cleanupPreviousTask emptyRt = (none, emptyRt) ∧
    cleanupPreviousTask (cleanupPreviousTask emptyRt).2 = (none, emptyRt) :=
  c8_cleanup_idempotent emptyRt rfl rfl rfl

/-- C10: a container-load failure (including container-not-found) is
returned by `cleanupPreviousTask` with no side effect, and only a
not-found task lookup on a loadable container is converted to success. -/
theorem c10_load_error_propagates (st : RtState) (e : GoError) :
    (st.loadErr = some e → cleanupPreviousTask st = (some e, st)) ∧
    (st.loadErr = none → taskLookup st = some GoError.notFound →
      cleanupPreviousTask st = (none, st)) := by
  constructor
  · intro h
    simp [cleanupPreviousTask, h]
  · intro h1 h2
    simp [cleanupPreviousTask, h1, h2, isNotFound]

/-- C10 witness: cleanup on a missing container fails with the load error;
on a loadable container with no task it succeeds. -/
theorem c10_witness :
    cleanupPreviousTask missingContainerRt = (some GoError.notFound, missingContainerRt) ∧
    cleanupPreviousTask emptyRt = (none, emptyRt) :=
  ⟨(c10_load_error_propagates missingContainerRt GoError.notFound).1 rfl,
   (c10_load_error_propagates emptyRt GoError.notFound).2 rfl rfl⟩

/-- C3: in every supervision run whose initial `task.Wait` succeeds, there
is exactly one live wait subscription whenever the loop is at its select
point (any schedule whose run has not returned leaves `liveSubs = 1`);
the first subscription is registered before `task.Start` is issued (the
log always ends, oldest first, with the wait subscription and then the
start call); and every successful wait-branch reconnection is immediately
followed by exactly one re-issued subscription (`rwInv`). -/
theorem c3_single_wait_subscription (env : MonEnv) (d : GErr) (picks : List Pick)
    (h0 : env.waitCallErr 0 = none) :
    ((monitorTask env d picks).1 = none → (monitorTask env d picks).2.liveSubs = 1) ∧
    rwInv (monitorTask env d picks).2.log = true ∧
    (∃ old, (monitorTask env d picks).2.log = old ++ [Act.startCall, Act.waitSub none]) := by
  have hinv := runLoop_inv env picks startState (startState_inv env)
  cases hr : (runLoop env picks startState).1 with
  | none =>
    have hmt : monitorTask env d picks = (none, (runLoop env picks startState).2) := by
      simp [monitorTask, h0, hr]
    have hst := hinv.1 hr
    unfold StInv LogInv LogInvL at hst
    obtain ⟨⟨hrw, hdmp, hdm0, hdm1, hdms, htd, old, hsuf⟩, hl⟩ := hst
    rw [hmt]
    exact ⟨fun _ => hl, hrw, old, hsuf⟩
  | some res =>
    have hmt : monitorTask env d picks =
        (some res, { (runLoop env picks startState).2 with
          log := Act.teardown d :: (runLoop env picks startState).2.log }) := by
      simp [monitorTask, h0, hr]
    have hlog := hinv.2 res hr
    unfold LogInv LogInvL at hlog
    obtain ⟨hrw, hdmp, hdm0, hdm1, hdms, htd, old, hsuf⟩ := hlog
    rw [hmt]
    refine ⟨fun hx => absurd hx (by simp), ?_, Act.teardown d :: old, by simp [hsuf]⟩
    exact rwInv_cons _ _ rfl hrw

/-- C3 witness: an empty schedule leaves the loop at its select point with
one live subscription and a log issuing the subscription before the start
call. -/
theorem c3_witness :
    (monitorTask unavailEnv none []).2.liveSubs = 1 ∧
    rwInv (monitorTask unavailEnv none []).2.log = true := by
  have h := c3_single_wait_subscription unavailEnv none [] rfl
  exact ⟨h.1 rfl, h.2.1⟩

/-- C4: in every run, `DisableMaintainance` is called at most once; every
such call is immediately preceded by a successful receive on `started`
(start-completion without error), and it can only happen when
`task.Start` returned `nil`; and a failed `DisableMaintainance` is only
logged — on start-completion success the loop always continues, whatever
the maintenance result is. -/
theorem c4_disable_maintainance_once (env : MonEnv) (d : GErr) (picks : List Pick) :
    dmCount (monitorTask env d picks).2.log ≤ 1 ∧
    dmPairsOk (monitorTask env d picks).2.log = true ∧
    (1 ≤ dmCount (monitorTask env d picks).2.log → env.startErr = none) ∧
    (∀ st : MonState, st.startedPending = true → env.startErr = none →
      step env st Pick.startDone = Sum.inl
        { st with
          startedPending := false
          log := Act.disableMaint env.disableErr :: Act.startedRecv none :: st.log }) := by
  have hlast : ∀ st : MonState, st.startedPending = true → env.startErr = none →
      step env st Pick.startDone = Sum.inl
        { st with
          startedPending := false
          log := Act.disableMaint env.disableErr :: Act.startedRecv none :: st.log } := by
    intro st hp hse
    simp [step, hp, hse]
  cases h0 : env.waitCallErr 0 with
  | some e =>
    have hmt : (monitorTask env d picks).2.log = [Act.teardown d, Act.waitSub (some e)] := by
      simp [monitorTask, h0]
    rw [hmt]
    refine ⟨?_, ?_, ?_, hlast⟩
    · simp [dmCount, List.countP_cons, Act.isDisableMaint]
    · simp [dmPairsOk, Act.isDisableMaint]
    · intro hq
      simp [dmCount, List.countP_cons, Act.isDisableMaint] at hq
  | none =>
    have hinv := runLoop_inv env picks startState (startState_inv env)
    cases hr : (runLoop env picks startState).1 with
    | none =>
      have hmt : (monitorTask env d picks).2.log = (runLoop env picks startState).2.log := by
        simp [monitorTask, h0, hr]
      have hst := hinv.1 hr
      unfold StInv LogInv LogInvL at hst
      obtain ⟨⟨hrw, hdmp, hdm0, hdm1, hdms, htd, old, hsuf⟩, hl⟩ := hst
      rw [hmt]
      exact ⟨hdm1, hdmp, hdms, hlast⟩
    | some res =>
      have hmt : (monitorTask env d picks).2.log =
          Act.teardown d :: (runLoop env picks startState).2.log := by
        simp [monitorTask, h0, hr]
      have hlog := hinv.2 res hr
      unfold LogInv LogInvL at hlog
      obtain ⟨hrw, hdmp, hdm0, hdm1, hdms, htd, old, hsuf⟩ := hlog
      rw [hmt]
      refine ⟨?_, dmPairsOk_cons _ _ rfl hdmp, ?_, hlast⟩
      · simpa [dmCount_cons, Act.isDisableMaint] using hdm1
      · intro hq
        apply hdms
        simpa [dmCount_cons, Act.isDisableMaint] using hq

/-- C4 witness: with a failing `DisableMaintainance`, start-completion
success still continues the loop, recording the failure in the log; and
no run calls `DisableMaintainance` more than once. -/
theorem c4_witness :
    step dmFailEnv startState Pick.startDone = Sum.inl
      { startState with
        startedPending := false
        log := Act.disableMaint (some (GoError.msg "maintenance toggle failed")) ::
          Act.startedRecv none :: startState.log } ∧
    dmCount (monitorTask dmFailEnv none [Pick.startDone]).2.log ≤ 1 := by
  have h := c4_disable_maintainance_once dmFailEnv none [Pick.startDone]
  exact ⟨h.2.2.2 startState rfl rfl, h.1⟩

/-- C9: on every exit of the supervisor — the initial `task.Wait`
failure, a normal exit, or any fatal error — the deferred kill-then-delete
teardown has run exactly once; while the loop is still running it has not
run; and the teardown's result never changes the `(status, error)` result
of `monitorTask` (which is the same for every `task.Delete` outcome,
"already gone" included). -/
theorem c9_teardown_once (env : MonEnv) (d : GErr) (picks : List Pick) :
    ((monitorTask env d picks).1.isSome → tdCount (monitorTask env d picks).2.log = 1) ∧
    ((monitorTask env d picks).1 = none → tdCount (monitorTask env d picks).2.log = 0) ∧
    (∀ d2 : GErr, (monitorTask env d2 picks).1 = (monitorTask env d picks).1) := by
  have hd : ∀ d2 : GErr, (monitorTask env d2 picks).1 = (monitorTask env d picks).1 := by
    intro d2
    cases h0 : env.waitCallErr 0 with
    | some e => simp [monitorTask, h0]
    | none =>
      cases hr : (runLoop env picks startState).1 with
      | none => simp [monitorTask, h0, hr]
      | some res => simp [monitorTask, h0, hr]
  cases h0 : env.waitCallErr 0 with
  | some e =>
    have hmt1 : (monitorTask env d picks).1 = some (-1, some e) := by simp [monitorTask, h0]
    have hmt2 : (monitorTask env d picks).2.log = [Act.teardown d, Act.waitSub (some e)] := by
      simp [monitorTask, h0]
    rw [hmt1, hmt2]
    refine ⟨fun _ => ?_, fun hx => absurd hx (by simp), fun d2 => (hd d2).trans hmt1⟩
    simp [tdCount, List.countP_cons, Act.isTeardown]
  | none =>
    have hinv := runLoop_inv env picks startState (startState_inv env)
    cases hr : (runLoop env picks startState).1 with
    | none =>
      have hmt1 : (monitorTask env d picks).1 = none := by simp [monitorTask, h0, hr]
      have hmt2 : (monitorTask env d picks).2.log = (runLoop env picks startState).2.log := by
        simp [monitorTask, h0, hr]
      have hst := hinv.1 hr
      unfold StInv LogInv LogInvL at hst
      obtain ⟨⟨hrw, hdmp, hdm0, hdm1, hdms, htd, old, hsuf⟩, hl⟩ := hst
      rw [hmt1, hmt2]
      exact ⟨fun hx => absurd hx (by simp), fun _ => htd, fun d2 => (hd d2).trans hmt1⟩
    | some res =>
      have hmt1 : (monitorTask env d picks).1 = some res := by simp [monitorTask, h0, hr]
      have hmt2 : (monitorTask env d picks).2.log =
          Act.teardown d :: (runLoop env picks startState).2.log := by
        simp [monitorTask, h0, hr]
      have hlog := hinv.2 res hr
      unfold LogInv LogInvL at hlog
      obtain ⟨hrw, hdmp, hdm0, hdm1, hdms, htd, old, hsuf⟩ := hlog
      rw [hmt1, hmt2]
      refine ⟨fun _ => ?_, fun hx => absurd hx (by simp), fun d2 => (hd d2).trans hmt1⟩
      simp [tdCount_cons, Act.isTeardown, htd]

/-- C9 witness: a completed run tears down exactly once; a still-waiting
run has not torn down; a "task already gone" teardown outcome leaves the
result unchanged. -/
theorem c9_witness :
    tdCount (monitorTask unavailEnv none [Pick.startDone, Pick.waitFires]).2.log = 1 ∧
    tdCount (monitorTask unavailEnv none []).2.log = 0 ∧
    (monitorTask unavailEnv (some GoError.notFound) []).1 =
      (monitorTask unavailEnv none []).1 := by
  have h := c9_teardown_once unavailEnv none [Pick.startDone, Pick.waitFires]
  have h2 := c9_teardown_once unavailEnv none []
  exact ⟨h.1 (by decide), h2.2.1 rfl, h2.2.2 (some GoError.notFound)⟩

end Boss
